import Mathlib

/-!
Shallow embedding of the task-management core of this repository
(task/models.py, task/serializers.py, task/forms.py, task/views.py,
task/dashboard_views.py), together with proofs of the specification's
testable properties about it.

Modelling conventions:
* Python strings are modelled as lists of character codes (`PyStr`);
  `str.strip`, `str.lower`, `str.title` are modelled on the ASCII range,
  which covers all data these claims are about.
* Timestamps are natural numbers counting minutes; a calendar date is the
  timestamp divided by 1440, and the epoch (day 0) is chosen to be a
  Monday, so `weekday d = d % 7` matches Python's `date.weekday()`
  (Monday = 0).
* The database is a list of records; Django querysets become list
  filters; `NULL` columns become `Option`.
-/

namespace TaskFlow

/-- A Python string as a list of character codes. -/
abbrev PyStr := List Nat

/-- Convert a Lean string literal to the character-code model. -/
def str2py (s : String) : PyStr := s.toList.map Char.toNat

/-- Python `str.strip` whitespace set (space, tab, LF, VT, FF, CR). -/
def pyIsSpaceC (c : Nat) : Bool := c == 32 || c == 9 || c == 10 || c == 11 || c == 12 || c == 13

/-- Python `str.strip`: drop whitespace from both ends. -/
def pyStrip (s : PyStr) : PyStr :=
  ((s.dropWhile pyIsSpaceC).reverse.dropWhile pyIsSpaceC).reverse

/-- ASCII lower-casing of one character code (model of `str.lower`). -/
def pyLowerC (c : Nat) : Nat := if 65 ≤ c ∧ c ≤ 90 then c + 32 else c

/-- ASCII upper-casing of one character code (model of `str.upper`). -/
def pyUpperC (c : Nat) : Nat := if 97 ≤ c ∧ c ≤ 122 then c - 32 else c

/-- ASCII cased-letter test. -/
def pyIsAlphaC (c : Nat) : Bool := (65 ≤ c && c ≤ 90) || (97 ≤ c && c ≤ 122)

/-- Python `str.lower` on the ASCII model. -/
def pyLower (s : PyStr) : PyStr := s.map pyLowerC

/-- Python `str.title` on the ASCII model: a cased character is
upper-cased when the previous character is not cased, lower-cased
otherwise.  The boolean argument records whether the previous character
was cased. -/
def pyTitleAux : PyStr → Bool → PyStr
  | [], _ => []
  | c :: rest, prevCased =>
    if pyIsAlphaC c then
      (if prevCased then pyLowerC c else pyUpperC c) :: pyTitleAux rest true
    else
      c :: pyTitleAux rest false

/-- Python `str.title`. -/
def pyTitle (s : PyStr) : PyStr := pyTitleAux s false

/-- `Task.PRIORITY_CHOICES` (models.py). -/
def PRIORITY_CHOICES : List (String × String) :=
  [("HIGH", "High"), ("MEDIUM", "Medium"), ("LOW", "Low")]

/-- `Task.CATEGORY_CHOICES` (models.py). -/
def CATEGORY_CHOICES : List (String × String) :=
  [("WORK", "Work"), ("PERSONAL", "Personal"), ("FITNESS", "Fitness"),
   ("SHOPPING", "Shopping"), ("HEALTH", "Health"), ("EDUCATION", "Education"),
   ("FINANCE", "Finance"), ("OTHER", "Other")]

/-- `dict(CHOICES).get(code, code)`: display name of a code, falling back
to the code itself. -/
def choiceLookup (choices : List (String × String)) (code : String) : String :=
  match choices.find? (fun p => p.1 == code) with
  | some p => p.2
  | none => code

/-- The `Category` model (models.py): a user-defined custom category. -/
structure Category where
  id : Nat
  name : PyStr
  color : Option PyStr
  user : Nat
  deriving Repr, DecidableEq

/-- The `Task` model (models.py).  `category` is the optional system
category code; `custom_category` the optional reference to a `Category`
(embedded by value, as the resolved foreign key). -/
structure Task where
  id : Nat
  title : PyStr
  description : Option PyStr
  due_date : Option Nat
  priority : String
  category : Option String
  custom_category : Option Category
  is_completed : Bool
  user : Nat
  created_at : Nat
  completed_at : Option Nat
  deriving Repr, DecidableEq

/-- Python truthiness of an optional string column: `None` and the empty
string are falsy. -/
def strTruthy : Option String → Bool
  | none => false
  | some s => !(s == "")

/-- `Task.save` (models.py lines 113-119): set `completed_at` to now when
completing with no timestamp yet, clear it whenever not completed. -/
def Task.save (now : Nat) (t : Task) : Task :=
  if t.is_completed ∧ t.completed_at = none then
    { t with completed_at := some now }
  else if ¬ t.is_completed then
    { t with completed_at := none }
  else t

/-- The effective category of a task, as returned by the
`Task.effective_category` property. -/
inductive EffectiveCategory where
  | custom (id : Nat) (name : PyStr) (color : Option PyStr)
  | defaultCat (code : String) (name : String)
  deriving Repr, DecidableEq

/-- `type` field of the effective-category dict. -/
def EffectiveCategory.ctype : EffectiveCategory → String
  | .custom _ _ _ => "custom"
  | .defaultCat _ _ => "default"

/-- `code` field of the effective-category dict (absent for custom). -/
def EffectiveCategory.code : EffectiveCategory → Option String
  | .custom _ _ _ => none
  | .defaultCat c _ => some c

/-- `Task.effective_category` (models.py lines 136-157): custom category
takes precedence, then the stored system code (when truthy), then the
OTHER fallback. -/
def Task.effective_category (t : Task) : EffectiveCategory :=
  match t.custom_category with
  | some c => .custom c.id c.name c.color
  | none =>
    match t.category with
    | some s =>
      if s == "" then .defaultCat "OTHER" "Other"
      else .defaultCat s (choiceLookup CATEGORY_CHOICES s)
    | none => .defaultCat "OTHER" "Other"

/-- `Task.clean` (models.py lines 159-162): default the system category to
OTHER when neither category field is populated. -/
def Task.clean (t : Task) : Task :=
  if ¬ strTruthy t.category ∧ t.custom_category = none then
    { t with category := some "OTHER" }
  else t

/-- The completion/timestamp invariant of §8 of the spec. -/
def taskInv (t : Task) : Prop :=
  (t.is_completed = true → t.completed_at ≠ none) ∧
  (t.is_completed = false → t.completed_at = none)

/-- The error outcomes an API view can produce (HTTP 404, 403, 400). -/
inductive ApiError where
  | notFound
  | forbidden
  | validationFailed
  | badRequest
  deriving Repr, DecidableEq

/-- `get_queryset` of the retrieve/update/destroy task views (views.py):
tasks of the authenticated user only. -/
def get_queryset (store : List Task) (owner : Nat) : List Task :=
  store.filter (fun t => t.user == owner)

/-- DRF `get_object` for the task detail views: look the id up in the
owner-filtered queryset (404 when absent), then run
`IsTaskOwner.has_object_permission` (403 when the object is not the
requester's). -/
def get_object (store : List Task) (owner tid : Nat) : Except ApiError Task :=
  match (get_queryset store owner).find? (fun t => t.id == tid) with
  | none => .error .notFound
  | some t => if t.user == owner then .ok t else .error .forbidden

/-- The writable fields of `TaskUpdateSerializer` (serializers.py lines
73-86); `none` means the field was not supplied in the request. -/
structure TaskUpdateFields where
  title : Option PyStr
  description : Option (Option PyStr)
  due_date : Option (Option Nat)
  priority : Option String
  category : Option (Option String)
  is_completed : Option Bool
  deriving Repr

/-- Apply a validated update to a task instance and save it
(`TaskUpdateAPIView.update` → serializer `update` → `Task.save`).  Only
the serializer's declared fields are written. -/
def applyTaskUpdate (now : Nat) (t : Task) (u : TaskUpdateFields) : Task :=
  Task.save now
    { t with
      title := u.title.getD t.title
      description := u.description.getD t.description
      due_date := u.due_date.getD t.due_date
      priority := u.priority.getD t.priority
      category := u.category.getD t.category
      is_completed := u.is_completed.getD t.is_completed }

/-- `TaskUpdateAPIView` (full or partial update): resolve the object
through the owner-scoped lookup, then apply the update. -/
def updateTaskOp (store : List Task) (owner tid now : Nat) (u : TaskUpdateFields) :
    Except ApiError Task × List Task :=
  match get_object store owner tid with
  | .error e => (.error e, store)
  | .ok t =>
    let t' := applyTaskUpdate now t u
    (.ok t', store.map (fun s => if s.id == t.id then t' else s))

/-- `TaskDestroyAPIView`: owner-scoped lookup, then delete. -/
def destroyTaskOp (store : List Task) (owner tid : Nat) :
    Except ApiError Unit × List Task :=
  match get_object store owner tid with
  | .error _ => (.error .notFound, store)
  | .ok _ => (.ok (), store.filter (fun s => !(s.id == tid)))

/-- `task_toggle_complete` (dashboard_views.py lines 283-297) applied to
the task found by `get_object_or_404(Task, id=task_id, user=request.user)`:
flip the flag and save. -/
def task_toggle_complete (now : Nat) (t : Task) : Task :=
  Task.save now { t with is_completed := !t.is_completed }

/-- DRF `CharField` input handling for the task `title` field: whitespace
is trimmed (`trim_whitespace` default), a blank result is rejected
(`allow_blank` default False), and the model's `max_length=200`
(models.py line 69) is enforced on the trimmed value. -/
def drfTitleField (v : PyStr) : Except ApiError PyStr :=
  let t := pyStrip v
  if t = [] then .error .validationFailed
  else if 200 < t.length then .error .validationFailed
  else .ok t

/-- `TaskCreateSerializer.validate_title` (serializers.py lines 64-70,
identical in `TaskUpdateSerializer`): reject a title that is empty after
stripping, return it stripped. -/
def tcs_validate_title (v : PyStr) : Except ApiError PyStr :=
  if pyStrip v = [] then .error .validationFailed else .ok (pyStrip v)

/-- The complete title validation of the API create/update path: DRF
field handling followed by `validate_title`. -/
def apiValidateTitle (v : PyStr) : Except ApiError PyStr :=
  (drfTitleField v).bind tcs_validate_title

/-- `TaskForm.clean_title` (forms.py lines 66-75): strip, then reject
fewer than 3 or more than 200 characters.  A falsy (empty) value is
returned unvalidated — the field's own `required` check rejects it. -/
def taskForm_clean_title (v : PyStr) : Except ApiError PyStr :=
  if v = [] then .ok v
  else
    let t := pyStrip v
    if t.length < 3 then .error .validationFailed
    else if 200 < t.length then .error .validationFailed
    else .ok t

/-- The complete title validation of the web-form path: Django
`CharField` strips the raw value and rejects an empty result (`required`),
then `clean_title` runs. -/
def formValidateTitle (v : PyStr) : Except ApiError PyStr :=
  let t := pyStrip v
  if t = [] then .error .validationFailed
  else taskForm_clean_title t

/-- The writable fields of `TaskCreateSerializer` (serializers.py lines
34-47), after field-level validation.  `priority` is `none` when omitted
(the model default `MEDIUM` then applies). -/
structure TaskCreateFields where
  title : PyStr
  description : Option PyStr
  due_date : Option Nat
  priority : Option String
  category : Option String
  custom_category : Option Category
  deriving Repr

/-- `TaskCreateAPIView.create`: build the model instance from the
validated data with the requester as owner and save it.  The DRF path
calls `Task.save` but never `Task.clean` (no `full_clean`). -/
def createTaskAPI (owner newId now : Nat) (f : TaskCreateFields) : Task :=
  Task.save now
    { id := newId
      title := f.title
      description := f.description
      due_date := f.due_date
      priority := f.priority.getD "MEDIUM"
      category := f.category
      custom_category := f.custom_category
      is_completed := false
      user := owner
      created_at := now
      completed_at := none }

/-- `task_create_view` (dashboard_views.py lines 240-266) with `TaskForm`:
the `ModelForm` runs the model's `full_clean`, which invokes
`Task.clean`, before the instance is saved.  The form has no
`custom_category` field. -/
def createTaskForm (owner newId now : Nat) (title : PyStr)
    (description : Option PyStr) (due_date : Option Nat)
    (priority : Option String) (category : Option String) : Task :=
  Task.save now (Task.clean
    { id := newId
      title := title
      description := description
      due_date := due_date
      priority := priority.getD "MEDIUM"
      category := category
      custom_category := none
      is_completed := false
      user := owner
      created_at := now
      completed_at := none })

/-- `BulkTaskStatusUpdateAPIView.patch` (views.py lines 439-479): empty
id list is a 400; tasks are matched by `id__in` within the requester's
tasks; an empty match is a 404 with no state change; otherwise every
matched task gets the flag and is saved, and the reported
`updated_count` is the matched count. -/
def bulkSetCompleted (store : List Task) (owner : Nat) (ids : List Nat)
    (completed : Bool) (now : Nat) : Except ApiError Nat × List Task :=
  if ids.isEmpty then (.error .badRequest, store)
  else
    let matched := store.filter (fun t => ids.contains t.id && t.user == owner)
    if matched.isEmpty then (.error .notFound, store)
    else (.ok matched.length,
      store.map (fun t =>
        if ids.contains t.id && t.user == owner then
          Task.save now { t with is_completed := completed }
        else t))

/-- Pending tasks of a user (`is_completed=False`). -/
def pendingTasks (store : List Task) (owner : Nat) : List Task :=
  store.filter (fun t => t.user == owner && !t.is_completed)

/-- `due_date__lt=now` in SQL semantics: a NULL due date never matches. -/
def isOverdueAt (now : Nat) (t : Task) : Bool :=
  match t.due_date with
  | some d => d < now
  | none => false

/-- `UrgentTasksAPIView.get_queryset` (views.py lines 364-375): pending
tasks of the user that are HIGH priority or overdue. -/
def urgentTasks (store : List Task) (owner now : Nat) : List Task :=
  (pendingTasks store owner).filter
    (fun t => t.priority == "HIGH" || isOverdueAt now t)

/-- The `summary` of `UrgentTasksAPIView.list` (views.py lines 377-396):
total of the urgent set plus the (possibly overlapping) sub-counts taken
over that same set. -/
def urgentSummary (store : List Task) (owner now : Nat) : Nat × Nat × Nat :=
  let q := urgentTasks store owner now
  (q.length,
   (q.filter (fun t => t.priority == "HIGH")).length,
   (q.filter (fun t => isOverdueAt now t)).length)

/-- The dashboard's `urgent_tasks` count (views.py lines 608-612). -/
def dashboardUrgentCount (store : List Task) (owner now : Nat) : Nat :=
  (store.filter (fun t => t.user == owner &&
    ((t.priority == "HIGH" && !t.is_completed) ||
     (isOverdueAt now t && !t.is_completed)))).length

/-- Calendar date of a timestamp (timestamps count minutes). -/
def dateOf (ts : Nat) : Nat := ts / 1440

/-- `date.weekday()`: Monday = 0.  Day 0 of the model is a Monday. -/
def weekday (d : Nat) : Nat := d % 7

/-- `due_this_week` as computed by `TaskDashboardAPIView.get` (views.py
lines 576-593): pending tasks whose due date lies in
`[today - today.weekday(), today + 6]`, both ends inclusive. -/
def due_this_week_code (store : List Task) (owner now : Nat) : Nat :=
  let today := dateOf now
  let weekStart := today - weekday today
  (store.filter (fun t => t.user == owner && !t.is_completed &&
    (match t.due_date with
     | some d => weekStart ≤ dateOf d && dateOf d ≤ today + 6
     | none => false))).length

/-- Modelled from the spec's words (§4.3 `due_this_week`), for comparison
with the code: pending tasks whose due date lies in the Monday-start
window of exactly 7 days, `[today - today.weekday(), today -
today.weekday() + 6]`, both ends inclusive. -/
def due_this_week_spec (store : List Task) (owner now : Nat) : Nat :=
  let today := dateOf now
  let weekStart := today - weekday today
  (store.filter (fun t => t.user == owner && !t.is_completed &&
    (match t.due_date with
     | some d => weekStart ≤ dateOf d && dateOf d ≤ weekStart + 6
     | none => false))).length

/-- `CategoryCreateSerializer.validate_name` (serializers.py lines
189-201): reject a blank name, reject a case-insensitive (`name__iexact`)
match among the requester's existing categories, and return the stripped
title-cased value.  The DRF `CharField` has already stripped the raw
input and enforced the model's `max_length=50`. -/
def validate_name_ccs (store : List Category) (user : Nat) (v : PyStr) :
    Except ApiError PyStr :=
  if pyStrip v = [] then .error .validationFailed
  else if store.any (fun c => c.user == user && pyLower c.name == pyLower (pyStrip v)) then
    .error .validationFailed
  else .ok (pyTitle (pyStrip v))

/-- `Category.save` (models.py lines 38-45): `clean` title-cases the name
before the row is written. -/
def Category.saveModel (c : Category) : Category :=
  { c with name := pyTitle c.name }

/-- `CustomCategoryCreateAPIView.create`: DRF field handling
(trim, blank check, `max_length=50`), `validate_name`, then the model
save (which title-cases again via `Category.clean`). -/
def createCategory (store : List Category) (user newId : Nat)
    (rawName : PyStr) (color : Option PyStr) :
    Except ApiError Category × List Category :=
  let t := pyStrip rawName
  if t = [] then (.error .validationFailed, store)
  else if 50 < t.length then (.error .validationFailed, store)
  else
    match validate_name_ccs store user t with
    | .error e => (.error e, store)
    | .ok n =>
      let c := Category.saveModel { id := newId, name := n, color := color, user := user }
      (.ok c, store ++ [c])

/-- Per-owner case-insensitive uniqueness of stored custom-category
names (§3 invariant). -/
def catUniqueInv (store : List Category) : Prop :=
  List.Pairwise (fun c d => c.user = d.user → pyLower c.name ≠ pyLower d.name) store

/-! ### Sample records used by concrete witnesses -/

def wTask : Task :=
  { id := 1, title := str2py "Sample", description := none, due_date := none,
    priority := "MEDIUM", category := some "WORK", custom_category := none,
    is_completed := false, user := 5, created_at := 0, completed_at := none }

def wCustomCat : Category :=
  { id := 3, name := str2py "Gym", color := some (str2py "#00FF00"), user := 5 }

def cTask : Task :=
  { wTask with id := 2, custom_category := some wCustomCat }

def dTask : Task :=
  { wTask with id := 3, category := some "WORK" }

def eTask : Task :=
  { wTask with id := 4, category := none }

def c5Fields : TaskCreateFields :=
  { title := str2py "Valid title", description := none, due_date := none,
    priority := none, category := none, custom_category := none }

def c6Task : Task :=
  { id := 2, title := str2py "T", description := none,
    due_date := some (8 * 1440), priority := "LOW", category := some "WORK",
    custom_category := none, is_completed := false, user := 1,
    created_at := 0, completed_at := none }

def noneUpdate : TaskUpdateFields :=
  { title := none, description := none, due_date := none, priority := none,
    category := none, is_completed := none }

def wCatStore : List Category :=
  [{ id := 1, name := str2py "Test", color := none, user := 7 }]

/-! ### Helper lemmas -/

/-- `Task.save` only touches `completed_at`. -/
theorem Task.save_eq (now : Nat) (t : Task) :
    Task.save now t =
      { t with completed_at :=
          if t.is_completed then (if t.completed_at = none then some now else t.completed_at)
          else none } := by
  unfold Task.save
  by_cases hc : t.is_completed = true
  · by_cases hn : t.completed_at = none
    · simp [hc, hn]
    · have h1 : ¬(t.is_completed = true ∧ t.completed_at = none) := by simp [hc, hn]
      rw [if_neg h1, if_neg (show ¬¬t.is_completed = true by simp [hc]), if_pos hc, if_neg hn]
  · simp [hc]

theorem Task.save_id (now : Nat) (t : Task) : (Task.save now t).id = t.id := by
  rw [Task.save_eq]

theorem Task.save_user (now : Nat) (t : Task) : (Task.save now t).user = t.user := by
  rw [Task.save_eq]

theorem Task.save_category (now : Nat) (t : Task) :
    (Task.save now t).category = t.category := by
  rw [Task.save_eq]

theorem Task.save_custom_category (now : Nat) (t : Task) :
    (Task.save now t).custom_category = t.custom_category := by
  rw [Task.save_eq]

theorem Task.save_is_completed (now : Nat) (t : Task) :
    (Task.save now t).is_completed = t.is_completed := by
  rw [Task.save_eq]

/-- After any `Task.save`, the completion invariant holds. -/
theorem taskInv_save (now : Nat) (t : Task) : taskInv (Task.save now t) := by
  rw [Task.save_eq]
  constructor
  · intro h
    simp only at h ⊢
    simp [h]
    split <;> simp_all
  · intro h
    simp only at h ⊢
    simp [h]

/-- Inclusion–exclusion for counting with a disjunction of predicates. -/
theorem filter_or_add_and (l : List Task) (p q : Task → Bool) :
    (l.filter (fun a => p a || q a)).length + (l.filter (fun a => p a && q a)).length =
      (l.filter p).length + (l.filter q).length := by
  induction l with
  | nil => rfl
  | cons a l ih =>
    by_cases hp : p a = true <;> by_cases hq : q a = true <;>
      simp [List.filter_cons, hp, hq] <;> omega

/-- Any head of a `dropWhile` result fails the predicate. -/
theorem dropWhile_head_false (p : Nat → Bool) (l : PyStr) (a : Nat)
    (h : (l.dropWhile p).head? = some a) : p a = false := by
  induction l with
  | nil => simp at h
  | cons c rest ih =>
    by_cases hc : p c = true
    · rw [List.dropWhile_cons, if_pos hc] at h
      exact ih h
    · rw [List.dropWhile_cons, if_neg hc] at h
      simp at h
      subst h
      simpa using hc

/-- A list whose head fails the predicate is unchanged by `dropWhile`. -/
theorem dropWhile_eq_self (p : Nat → Bool) (l : PyStr)
    (h : ∀ a, l.head? = some a → p a = false) : l.dropWhile p = l := by
  cases l with
  | nil => rfl
  | cons c rest =>
    rw [List.dropWhile_cons, if_neg]
    simp [h c rfl]

theorem dropWhile_idem (p : Nat → Bool) (l : PyStr) :
    (l.dropWhile p).dropWhile p = l.dropWhile p :=
  dropWhile_eq_self p _ (fun a h => dropWhile_head_false p l a h)

/-- Python `strip` is idempotent. -/
theorem pyStrip_idem (s : PyStr) : pyStrip (pyStrip s) = pyStrip s := by
  unfold pyStrip
  set p := pyIsSpaceC with hp
  set m := s.dropWhile p with hm
  set r := m.reverse.dropWhile p with hr
  have hsuf : r <:+ m.reverse := by rw [hr]; exact List.dropWhile_suffix p
  have hpre : r.reverse <+: m := by
    obtain ⟨pre, hp2⟩ := hsuf
    refine ⟨pre.reverse, ?_⟩
    have hmr : m.reverse.reverse = (pre ++ r).reverse := by rw [hp2]
    rw [List.reverse_reverse, List.reverse_append] at hmr
    exact hmr.symm
  have h1 : r.reverse.dropWhile p = r.reverse := by
    apply dropWhile_eq_self
    intro a ha
    obtain ⟨ts, hts⟩ := hpre
    cases hrev : r.reverse with
    | nil => rw [hrev] at ha; simp at ha
    | cons b bs =>
      rw [hrev] at ha hts
      simp at ha
      have hhm : m.head? = some b := by rw [← hts]; rfl
      rw [← ha]
      rw [hm] at hhm
      exact dropWhile_head_false p s b hhm
  rw [h1, List.reverse_reverse]
  have h2 : r.dropWhile p = r := by rw [hr]; exact dropWhile_idem p m.reverse
  rw [h2]

/-- ASCII case-function facts. -/
theorem pyLowerC_pyUpperC (c : Nat) : pyLowerC (pyUpperC c) = pyLowerC c := by
  unfold pyLowerC pyUpperC
  split_ifs <;> omega

theorem pyLowerC_pyLowerC (c : Nat) : pyLowerC (pyLowerC c) = pyLowerC c := by
  unfold pyLowerC
  split_ifs <;> omega

theorem pyUpperC_pyUpperC (c : Nat) : pyUpperC (pyUpperC c) = pyUpperC c := by
  unfold pyUpperC
  split_ifs <;> omega

theorem pyLowerC_of_not_alpha (c : Nat) (h : pyIsAlphaC c = false) : pyLowerC c = c := by
  unfold pyIsAlphaC at h
  unfold pyLowerC
  simp at h
  split_ifs with h1
  · omega
  · rfl

theorem pyIsAlphaC_pyUpperC (c : Nat) : pyIsAlphaC (pyUpperC c) = pyIsAlphaC c := by
  unfold pyIsAlphaC pyUpperC
  split_ifs with h
  · rw [Bool.eq_iff_iff]
    simp
    omega
  · rfl

theorem pyIsAlphaC_pyLowerC (c : Nat) : pyIsAlphaC (pyLowerC c) = pyIsAlphaC c := by
  unfold pyIsAlphaC pyLowerC
  split_ifs with h
  · rw [Bool.eq_iff_iff]
    simp
    omega
  · rfl

/-- Python `title` is idempotent (on the ASCII model). -/
theorem pyTitleAux_idem (s : PyStr) : ∀ b, pyTitleAux (pyTitleAux s b) b = pyTitleAux s b := by
  induction s with
  | nil => intro b; rfl
  | cons c rest ih =>
    intro b
    by_cases h : pyIsAlphaC c = true
    · cases b with
      | false =>
        simp only [pyTitleAux, h, if_pos, Bool.false_eq_true, if_false]
        rw [if_pos (by rw [pyIsAlphaC_pyUpperC]; exact h)]
        rw [pyUpperC_pyUpperC]
        simp [ih true]
      | true =>
        simp only [pyTitleAux, h, if_pos, if_true]
        rw [if_pos (by rw [pyIsAlphaC_pyLowerC]; exact h)]
        rw [pyLowerC_pyLowerC]
        simp [ih true]
    · simp only [pyTitleAux, h, Bool.false_eq_true, if_false]
      rw [ih false]

theorem pyTitle_idem (s : PyStr) : pyTitle (pyTitle s) = pyTitle s :=
  pyTitleAux_idem s false

/-- Lower-casing erases the effect of `title`. -/
theorem pyLower_pyTitleAux (s : PyStr) : ∀ b, pyLower (pyTitleAux s b) = pyLower s := by
  induction s with
  | nil => intro b; rfl
  | cons c rest ih =>
    intro b
    by_cases h : pyIsAlphaC c = true
    · simp only [pyTitleAux, h, if_true, pyLower, List.map_cons]
      rw [show pyLowerC (if b = true then pyLowerC c else pyUpperC c) = pyLowerC c by
        cases b <;> simp [pyLowerC_pyLowerC, pyLowerC_pyUpperC]]
      have := ih true
      simp only [pyLower] at this
      rw [this]
    · simp only [pyTitleAux, h, Bool.false_eq_true, if_false, pyLower, List.map_cons]
      have := ih false
      simp only [pyLower] at this
      rw [this]

theorem pyLower_pyTitle (s : PyStr) : pyLower (pyTitle s) = pyLower s :=
  pyLower_pyTitleAux s false

/-- Any task in the store returned by a bulk update that is matched by
the request (listed id, owned by the requester) carries the requested
flag and satisfies the completion invariant. -/
theorem bulk_mem_matched (store : List Task) (owner : Nat) (ids : List Nat)
    (b : Bool) (now : Nat) (t : Task)
    (ht : t ∈ (bulkSetCompleted store owner ids b now).2)
    (hcont : ids.contains t.id = true) (huser : t.user = owner) :
    t.is_completed = b ∧ taskInv t := by
  unfold bulkSetCompleted at ht
  by_cases hids : ids.isEmpty
  · rw [List.isEmpty_iff] at hids
    subst hids
    simp at hcont
  · rw [if_neg hids] at ht
    by_cases hm : (store.filter (fun t => ids.contains t.id && t.user == owner)).isEmpty
    · rw [if_pos hm] at ht
      simp only at ht
      rw [List.isEmpty_iff, List.filter_eq_nil_iff] at hm
      exact absurd (by simpa [huser] using hcont) (hm t ht)
    · rw [if_neg hm] at ht
      simp only at ht
      obtain ⟨s, hs, hfs⟩ := List.mem_map.mp ht
      by_cases hcond : (ids.contains s.id && s.user == owner) = true
      · rw [if_pos hcond] at hfs
        subst hfs
        refine ⟨?_, taskInv_save _ _⟩
        rw [Task.save_is_completed]
      · rw [if_neg hcond] at hfs
        subst hfs
        exact absurd (by simpa [huser] using hcont) hcond

/-- C1: after any create (API or form), update, toggle-complete, or bulk
completion operation, `is_completed = true` implies `completed_at ≠
null` and `is_completed = false` implies `completed_at = null` for every
task the operation wrote. -/
theorem c1_completion_invariant :
    (∀ owner newId now f, taskInv (createTaskAPI owner newId now f)) ∧
    (∀ owner newId now ti d dd p c, taskInv (createTaskForm owner newId now ti d dd p c)) ∧
    (∀ now t u, taskInv (applyTaskUpdate now t u)) ∧
    (∀ now t, taskInv (task_toggle_complete now t)) ∧
    (∀ store owner ids b now, ∀ t ∈ (bulkSetCompleted store owner ids b now).2,
        ids.contains t.id = true → t.user = owner → taskInv t) :=
  ⟨fun _ _ now _ => taskInv_save now _,
   fun _ _ now _ _ _ _ _ => taskInv_save now _,
   fun now _ _ => taskInv_save now _,
   fun now _ => taskInv_save now _,
   fun store owner ids b now t ht hc hu =>
     (bulk_mem_matched store owner ids b now t ht hc hu).2⟩

/-- C1 witness: the invariant holds of the concrete task written by a
concrete bulk completion. -/
theorem c1_witness : taskInv (Task.save 7 { wTask with is_completed := true }) :=
  c1_completion_invariant.2.2.2.2 [wTask] 5 [1] true 7
    (Task.save 7 { wTask with is_completed := true })
    (by decide) (by decide) (by decide)

/-- C2: for a task owned by user `a`, a retrieve, update or delete
request by a different user `b` produces `NotFound` — never success and
never `Forbidden` — and leaves the store unchanged, exactly as if the id
did not exist. -/
theorem c2_ownership_isolation (store : List Task) (a b tid now : Nat)
    (u : TaskUpdateFields) (hab : b ≠ a)
    (hown : ∀ t ∈ store, t.id = tid → t.user = a) :
    get_object store b tid = .error .notFound ∧
    updateTaskOp store b tid now u = (.error .notFound, store) ∧
    destroyTaskOp store b tid = (.error .notFound, store) := by
  have hgo : get_object store b tid = .error .notFound := by
    unfold get_object
    cases hf : (get_queryset store b).find? (fun t => t.id == tid) with
    | none => rfl
    | some t =>
      exfalso
      have hmem := List.mem_of_find?_eq_some hf
      have hpt := List.find?_some hf
      unfold get_queryset at hmem
      rw [List.mem_filter] at hmem
      have hid : t.id = tid := by simpa using hpt
      have hb : t.user = b := by simpa using hmem.2
      exact hab (hb ▸ hown t hmem.1 hid)
  refine ⟨hgo, ?_, ?_⟩
  · unfold updateTaskOp
    rw [hgo]
  · unfold destroyTaskOp
    rw [hgo]

/-- C2 witness: a concrete cross-owner access yields `NotFound` for all
three operations. -/
theorem c2_witness :
    get_object [wTask] 2 1 = .error .notFound ∧
    updateTaskOp [wTask] 2 1 9 noneUpdate = (.error .notFound, [wTask]) ∧
    destroyTaskOp [wTask] 2 1 = (.error .notFound, [wTask]) :=
  c2_ownership_isolation [wTask] 5 2 1 9 noneUpdate (by decide) (by decide)

/-- C3: the effective category of a task is the custom category when
one is set, otherwise the stored system code with its display name,
otherwise the OTHER fallback. -/
theorem c3_effective_category (t : Task) :
    (∀ c, t.custom_category = some c →
        t.effective_category = .custom c.id c.name c.color) ∧
    (∀ s, t.custom_category = none → t.category = some s →
        s ∈ CATEGORY_CHOICES.map Prod.fst →
        ∃ nm, (s, nm) ∈ CATEGORY_CHOICES ∧
          t.effective_category = .defaultCat s nm) ∧
    (t.custom_category = none → strTruthy t.category = false →
        t.effective_category = .defaultCat "OTHER" "Other") := by
  refine ⟨?_, ?_, ?_⟩
  · intro c hc
    unfold Task.effective_category
    rw [hc]
  · intro s hnone hcat hmem
    simp [CATEGORY_CHOICES] at hmem
    unfold Task.effective_category
    rw [hnone, hcat]
    rcases hmem with h | h | h | h | h | h | h | h <;> subst h <;>
      refine ⟨_, ?_, rfl⟩ <;> decide
  · intro hnone htr
    unfold Task.effective_category
    rw [hnone]
    cases hcat : t.category with
    | none => rfl
    | some s =>
      rw [hcat] at htr
      unfold strTruthy at htr
      simp at htr
      subst htr
      rfl

/-- C3 witness: concrete tasks in each of the three configurations. -/
theorem c3_witness :
    cTask.effective_category =
      .custom 3 (str2py "Gym") (some (str2py "#00FF00")) ∧
    (∃ nm, ("WORK", nm) ∈ CATEGORY_CHOICES ∧
      dTask.effective_category = .defaultCat "WORK" nm) ∧
    eTask.effective_category = .defaultCat "OTHER" "Other" :=
  ⟨(c3_effective_category cTask).1 wCustomCat rfl,
   (c3_effective_category dTask).2.1 "WORK" rfl rfl (by decide),
   (c3_effective_category eTask).2.2 rfl (by decide)⟩

/-- C4 counterexample: the API create/update title validation accepts a
title of 2 characters after trimming, so the claim that every create or
update rejects trimmed titles shorter than 3 characters is false on the
API path. -/
theorem c4_counterexample :
    apiValidateTitle (str2py "ab") = .ok (str2py "ab") ∧
    (pyStrip (str2py "ab")).length < 3 :=
  ⟨by rfl, by decide⟩

/-- C4 amended: the web-form path (`TaskForm.clean_title`) accepts a
title exactly when its trimmed length is between 3 and 200 and stores
the trimmed value; the API path (`validate_title` plus DRF field
handling) accepts exactly a trimmed length between 1 and 200 and stores
the trimmed value. -/
theorem c4_title_validation (v w : PyStr) :
    (formValidateTitle v = .ok w ↔
       3 ≤ (pyStrip v).length ∧ (pyStrip v).length ≤ 200 ∧ w = pyStrip v) ∧
    (apiValidateTitle v = .ok w ↔
       1 ≤ (pyStrip v).length ∧ (pyStrip v).length ≤ 200 ∧ w = pyStrip v) := by
  have hidem := pyStrip_idem v
  constructor
  · unfold formValidateTitle taskForm_clean_title
    by_cases h0 : pyStrip v = []
    · rw [if_pos h0]
      constructor
      · intro h
        exact absurd h (by simp)
      · rintro ⟨hge, -, -⟩
        rw [h0] at hge
        simp at hge
    · rw [if_neg h0, if_neg h0, hidem]
      by_cases h3 : (pyStrip v).length < 3
      · rw [if_pos h3]
        constructor
        · intro h
          exact absurd h (by simp)
        · rintro ⟨hge, -, -⟩
          omega
      · rw [if_neg h3]
        by_cases h200 : 200 < (pyStrip v).length
        · rw [if_pos h200]
          constructor
          · intro h
            exact absurd h (by simp)
          · rintro ⟨-, hle, -⟩
            omega
        · rw [if_neg h200]
          simp only [Except.ok.injEq]
          constructor
          · intro h
            exact ⟨by omega, by omega, h.symm⟩
          · rintro ⟨-, -, hw⟩
            exact hw.symm
  · unfold apiValidateTitle drfTitleField tcs_validate_title
    by_cases h0 : pyStrip v = []
    · rw [if_pos h0]
      constructor
      · intro h
        exact absurd h (by simp [Except.bind])
      · rintro ⟨hge, -, -⟩
        rw [h0] at hge
        simp at hge
    · rw [if_neg h0]
      by_cases h200 : 200 < (pyStrip v).length
      · rw [if_pos h200]
        constructor
        · intro h
          exact absurd h (by simp [Except.bind])
        · rintro ⟨-, hle, -⟩
          omega
      · rw [if_neg h200]
        simp only [Except.bind, hidem, if_neg h0, Except.ok.injEq]
        constructor
        · intro h
          refine ⟨?_, by omega, h.symm⟩
          have : pyStrip v ≠ [] := h0
          have hlen : (pyStrip v).length ≠ 0 := by
            simpa [List.length_eq_zero] using this
          omega
        · rintro ⟨-, -, hw⟩
          exact hw.symm

/-- C5 counterexample: a task created through the API with neither
category nor custom_category stores `category = null`, not OTHER — the
DRF path never runs `Task.clean`. -/
theorem c5_counterexample :
    (createTaskAPI 1 11 0 c5Fields).category = none ∧
    (createTaskAPI 1 11 0 c5Fields).category ≠ some "OTHER" := by
  constructor
  · rfl
  · intro h
    exact Option.noConfusion (show (none : Option String) = some "OTHER" from h)

/-- C5 amended: only the web-form create path applies the OTHER default
at write time (via `Task.clean` in the form's `full_clean`); the API
create path stores `null` and the OTHER fallback is applied at read time
by `effective_category`. -/
theorem c5_category_default (owner newId now : Nat) :
    (∀ ti d dd p cat, strTruthy cat = false →
        (createTaskForm owner newId now ti d dd p cat).category = some "OTHER") ∧
    (∀ f : TaskCreateFields, f.category = none → f.custom_category = none →
        (createTaskAPI owner newId now f).category = none ∧
        (createTaskAPI owner newId now f).effective_category =
          .defaultCat "OTHER" "Other") := by
  constructor
  · intro ti d dd p cat hcat
    unfold createTaskForm
    rw [Task.save_category]
    unfold Task.clean
    rw [if_pos (by simp [hcat])]
  · intro f hcat hcc
    have h1 : (createTaskAPI owner newId now f).custom_category = none := by
      unfold createTaskAPI
      rw [Task.save_custom_category]
      exact hcc
    have h2 : (createTaskAPI owner newId now f).category = none := by
      unfold createTaskAPI
      rw [Task.save_category]
      exact hcat
    refine ⟨h2, ?_⟩
    unfold Task.effective_category
    rw [h1, h2]

/-- C5 witness: concrete instantiations of both create paths. -/
theorem c5_witness :
    (createTaskForm 1 12 0 (str2py "Valid title") none none none none).category =
      some "OTHER" ∧
    (createTaskAPI 1 11 0 c5Fields).category = none ∧
    (createTaskAPI 1 11 0 c5Fields).effective_category =
      .defaultCat "OTHER" "Other" :=
  ⟨(c5_category_default 1 12 0).1 (str2py "Valid title") none none none none (by decide),
   ((c5_category_default 1 11 0).2 c5Fields rfl rfl).1,
   ((c5_category_default 1 11 0).2 c5Fields rfl rfl).2⟩

/-- C6 counterexample: on a Wednesday (weekday 2), the dashboard counts
a pending task due 8 days after Monday, which lies outside the 7-day
Monday-start window the claim describes, so the window does not span
exactly 7 days. -/
theorem c6_counterexample :
    weekday (dateOf (2 * 1440)) = 2 ∧
    due_this_week_code [c6Task] 1 (2 * 1440) = 1 ∧
    due_this_week_spec [c6Task] 1 (2 * 1440) = 0 := by
  refine ⟨rfl, rfl, rfl⟩

/-- C6 amended: `due_this_week` counts pending tasks whose due date lies
in the window starting on the Monday of the current week and ending at
today + 6 days, both ends inclusive — a span of `weekday(today) + 7`
days, which equals exactly 7 days only when today is Monday, in which
case it agrees with the 7-day window of the claim. -/
theorem c6_due_this_week (store : List Task) (owner now : Nat) :
    due_this_week_code store owner now =
      (store.filter (fun t => t.user == owner && !t.is_completed &&
        (match t.due_date with
         | some d => ((dateOf now - weekday (dateOf now)) ≤ dateOf d &&
             dateOf d ≤ (dateOf now - weekday (dateOf now)) +
               (weekday (dateOf now) + 6))
         | none => false))).length ∧
    (weekday (dateOf now) = 0 →
      due_this_week_code store owner now = due_this_week_spec store owner now) := by
  constructor
  · have harith : (dateOf now - weekday (dateOf now)) + (weekday (dateOf now) + 6) =
        dateOf now + 6 := by
      unfold weekday
      omega
    unfold due_this_week_code
    simp only [harith]
  · intro hmon
    unfold due_this_week_code due_this_week_spec
    simp only [hmon, Nat.sub_zero]

/-- C6 witness: on a concrete Monday the code and the claimed 7-day
window agree. -/
theorem c6_witness :
    due_this_week_code [c6Task] 1 0 = due_this_week_spec [c6Task] 1 0 :=
  (c6_due_this_week [c6Task] 1 0).2 (by decide)

/-- C7: bulk completion ignores ids not owned by the requester (the
corresponding tasks are untouched and no error is raised for them),
fails with `NotFound` and changes nothing when no listed id belongs to
the requester, and otherwise reports `updated_count` equal to the
number of owned matched tasks, each of which ends up with the requested
flag and the completion invariant. -/
theorem c7_bulk_set_completed (store : List Task) (owner : Nat) (ids : List Nat)
    (b : Bool) (now : Nat) (hids : ids ≠ []) :
    ((∀ t ∈ store, t.user = owner → ids.contains t.id = false) →
        bulkSetCompleted store owner ids b now = (.error .notFound, store)) ∧
    (∀ t ∈ store, t.user ≠ owner → t ∈ (bulkSetCompleted store owner ids b now).2) ∧
    ((∃ t ∈ store, ids.contains t.id = true ∧ t.user = owner) →
        (bulkSetCompleted store owner ids b now).1 =
          .ok (store.filter (fun t => ids.contains t.id && t.user == owner)).length) ∧
    (∀ t ∈ (bulkSetCompleted store owner ids b now).2,
        ids.contains t.id = true → t.user = owner →
          t.is_completed = b ∧ taskInv t) := by
  have hids' : ids.isEmpty = false := by
    cases ids with
    | nil => exact absurd rfl hids
    | cons a l => rfl
  refine ⟨?_, ?_, ?_, ?_⟩
  · intro hnone
    have hfil : store.filter (fun t => ids.contains t.id && t.user == owner) = [] := by
      rw [List.filter_eq_nil_iff]
      intro t ht hcond
      simp at hcond
      have h2 := hnone t ht hcond.2
      simp at h2
      exact h2 hcond.1
    unfold bulkSetCompleted
    rw [if_neg (by simp [hids']), hfil]
    rfl
  · intro t ht huser
    unfold bulkSetCompleted
    rw [if_neg (by simp [hids'])]
    by_cases hm : (store.filter (fun t => ids.contains t.id && t.user == owner)).isEmpty
    · rw [if_pos hm]
      exact ht
    · rw [if_neg hm]
      simp only
      refine List.mem_map.mpr ⟨t, ht, ?_⟩
      rw [if_neg]
      simp [huser]
  · rintro ⟨t, ht, hcont, huser⟩
    have hm : (store.filter (fun t => ids.contains t.id && t.user == owner)).isEmpty = false := by
      cases hfe : store.filter (fun t => ids.contains t.id && t.user == owner) with
      | nil =>
        rw [List.filter_eq_nil_iff] at hfe
        exact absurd (by simpa [huser] using hcont) (hfe t ht)
      | cons a l => rfl
    unfold bulkSetCompleted
    rw [if_neg (by simp [hids']), if_neg (by rw [hm]; simp)]
  · intro t ht hcont huser
    exact bulk_mem_matched store owner ids b now t ht hcont huser

/-- C7 witness: a concrete two-task bulk completion — the foreign task
request 404s, the owned one is updated with count 1. -/
theorem c7_witness :
    bulkSetCompleted [wTask] 9 [1] true 7 = (.error .notFound, [wTask]) ∧
    (bulkSetCompleted [wTask] 5 [1] true 7).1 =
      .ok (([wTask].filter (fun t => [1].contains t.id && t.user == 5)).length) :=
  ⟨(c7_bulk_set_completed [wTask] 9 [1] true 7 (by decide)).1
      (by intro t ht h; simp at ht; rw [ht] at h; exact absurd h (by decide)),
   (c7_bulk_set_completed [wTask] 5 [1] true 7 (by decide)).2.2.1
      ⟨wTask, by decide, by decide, by decide⟩⟩

/-- C8: the urgent total counts the union of pending-HIGH and
pending-overdue exactly once per task (inclusion–exclusion holds in
additive form), completed tasks never appear in the urgent set, the two
reported sub-counts are the (possibly overlapping) pending-HIGH and
pending-overdue counts, and the dashboard's urgent count agrees with the
urgent view's total. -/
theorem c8_urgent_union (store : List Task) (owner now : Nat) :
    (urgentSummary store owner now).1 +
      ((pendingTasks store owner).filter
        (fun t => t.priority == "HIGH" && isOverdueAt now t)).length =
      ((pendingTasks store owner).filter (fun t => t.priority == "HIGH")).length +
      ((pendingTasks store owner).filter (fun t => isOverdueAt now t)).length ∧
    (∀ t ∈ urgentTasks store owner now, t.is_completed = false) ∧
    (urgentSummary store owner now).2.1 =
      ((pendingTasks store owner).filter (fun t => t.priority == "HIGH")).length ∧
    (urgentSummary store owner now).2.2 =
      ((pendingTasks store owner).filter (fun t => isOverdueAt now t)).length ∧
    dashboardUrgentCount store owner now = (urgentSummary store owner now).1 := by
  refine ⟨?_, ?_, ?_, ?_, ?_⟩
  · exact filter_or_add_and (pendingTasks store owner) _ _
  · intro t ht
    unfold urgentTasks at ht
    have hp := List.mem_filter.mp ht
    unfold pendingTasks at hp
    have hp2 := List.mem_filter.mp hp.1
    have := hp2.2
    simp at this
    exact this.2
  · unfold urgentSummary urgentTasks
    simp only
    rw [List.filter_filter]
    congr 1
    apply List.filter_congr
    intro t _
    cases hh : (t.priority == "HIGH") <;> cases ho : isOverdueAt now t <;> rfl
  · unfold urgentSummary urgentTasks
    simp only
    rw [List.filter_filter]
    congr 1
    apply List.filter_congr
    intro t _
    cases hh : (t.priority == "HIGH") <;> cases ho : isOverdueAt now t <;> rfl
  · unfold dashboardUrgentCount urgentSummary urgentTasks pendingTasks
    simp only
    rw [List.filter_filter]
    congr 1
    apply List.filter_congr
    intro t _
    cases hu : (t.user == owner) <;> cases hc : t.is_completed <;>
      cases hh : (t.priority == "HIGH") <;> cases ho : isOverdueAt now t <;>
      simp [hu, hc, hh, ho]

/-- C8 witness: a concrete overdue pending task is in the urgent set and
is reported not completed. -/
theorem c8_witness : c6Task.is_completed = false :=
  (c8_urgent_union [c6Task] 1 (9 * 1440)).2.1 c6Task (by decide)

/-- C9: custom-category creation preserves per-owner case-insensitive
name uniqueness; creating "test" for an owner who already holds a
category lower-casing to "test" (such as "Test") fails with a validation
error and no store change; a different owner with no such category
succeeds and the stored name is "Test"; in general the stored name is
the trimmed, title-cased input. -/
theorem c9_category_name_uniqueness :
    (∀ store user newId raw color c store',
        createCategory store user newId raw color = (.ok c, store') →
        catUniqueInv store → catUniqueInv store') ∧
    (∀ store user newId color,
        (∃ d ∈ store, d.user = user ∧ pyLower d.name = pyLower (str2py "test")) →
        createCategory store user newId (str2py "test") color =
          (.error .validationFailed, store)) ∧
    (∀ store userB newId color,
        (∀ d ∈ store, d.user = userB → pyLower d.name ≠ pyLower (str2py "test")) →
        ∃ c, createCategory store userB newId (str2py "test") color =
          (.ok c, store ++ [c]) ∧ c.name = str2py "Test") ∧
    (∀ store user newId raw color c store',
        createCategory store user newId raw color = (.ok c, store') →
        c.name = pyTitle (pyStrip raw) ∧ c.user = user ∧ store' = store ++ [c]) := by
  have hok : ∀ store user newId raw color c store',
      createCategory store user newId raw color = (.ok c, store') →
      c.name = pyTitle (pyStrip raw) ∧ c.user = user ∧ store' = store ++ [c] ∧
      (∀ d ∈ store,
        (d.user == user && pyLower d.name == pyLower (pyStrip raw)) = false) := by
    intro store user newId raw color c store' h
    unfold createCategory validate_name_ccs at h
    by_cases h0 : pyStrip raw = []
    · rw [if_pos h0] at h
      exact absurd (congrArg Prod.fst h) (by simp)
    · rw [if_neg h0] at h
      by_cases h50 : 50 < (pyStrip raw).length
      · rw [if_pos h50] at h
        exact absurd (congrArg Prod.fst h) (by simp)
      · rw [if_neg h50] at h
        rw [if_neg (by rw [pyStrip_idem]; exact h0), pyStrip_idem] at h
        by_cases hany : store.any
            (fun d => d.user == user && pyLower d.name == pyLower (pyStrip raw)) = true
        · rw [if_pos hany] at h
          exact absurd (congrArg Prod.fst h) (by simp)
        · rw [if_neg hany] at h
          unfold Category.saveModel at h
          have hfst := congrArg Prod.fst h
          simp only [Except.ok.injEq] at hfst
          have hsnd := congrArg Prod.snd h
          simp only at hsnd
          refine ⟨?_, ?_, ?_, ?_⟩
          · rw [← hfst]
            simp only
            rw [pyTitle_idem]
          · rw [← hfst]
          · rw [← hsnd, ← hfst]
          · intro d hd
            cases hfd : (d.user == user && pyLower d.name == pyLower (pyStrip raw)) with
            | false => rfl
            | true => exact absurd (List.any_eq_true.mpr ⟨d, hd, hfd⟩) hany
  refine ⟨?_, ?_, ?_,
    fun store user newId raw color c store' h =>
      ⟨(hok store user newId raw color c store' h).1,
       (hok store user newId raw color c store' h).2.1,
       (hok store user newId raw color c store' h).2.2.1⟩⟩
  · intro store user newId raw color c store' h hinv
    obtain ⟨hname, huser, hs, hcheck⟩ := hok store user newId raw color c store' h
    rw [hs]
    unfold catUniqueInv at hinv ⊢
    rw [List.pairwise_append]
    refine ⟨hinv, by simp, ?_⟩
    intro a ha b hb hau
    rw [List.mem_singleton] at hb
    subst hb
    have hf := hcheck a ha
    intro hln
    rw [hname, pyLower_pyTitle] at hln
    have hau' : a.user = user := by rw [hau, huser]
    simp [hau', hln] at hf
  · rintro store user newId color ⟨d, hd, hdu, hdn⟩
    unfold createCategory validate_name_ccs
    rw [if_neg (by decide), if_neg (by decide),
        if_neg (by rw [pyStrip_idem]; decide), pyStrip_idem]
    rw [if_pos (List.any_eq_true.mpr ⟨d, hd, by
      rw [hdu, hdn]
      simp
      decide⟩)]
  · intro store userB newId color hnone
    unfold createCategory validate_name_ccs
    rw [if_neg (by decide), if_neg (by decide),
        if_neg (by rw [pyStrip_idem]; decide), pyStrip_idem]
    rw [if_neg (fun hany => by
      obtain ⟨d, hd, hfd⟩ := List.any_eq_true.mp hany
      rw [Bool.and_eq_true] at hfd
      exact hnone d hd (by simpa using hfd.1) (by simpa using hfd.2))]
    exact ⟨_, rfl, rfl⟩

/-- C9 witness: concrete same-owner collision and cross-owner success. -/
theorem c9_witness :
    createCategory wCatStore 7 2 (str2py "test") none =
      (.error .validationFailed, wCatStore) ∧
    (∃ c, createCategory wCatStore 9 2 (str2py "test") none =
      (.ok c, wCatStore ++ [c]) ∧ c.name = str2py "Test") :=
  ⟨c9_category_name_uniqueness.2.1 wCatStore 7 2 none
      ⟨{ id := 1, name := str2py "Test", color := none, user := 7 },
       by decide, by decide, by decide⟩,
   c9_category_name_uniqueness.2.2.1 wCatStore 9 2 none
      (by decide)⟩

/-- C10: the update serializer exposes no `custom_category` field, so an
API update — full or partial — never changes any task's custom
category: the updated instance keeps its value and the whole store's
custom-category column is unchanged. -/
theorem c10_update_preserves_custom_category (store : List Task)
    (owner tid now : Nat) (u : TaskUpdateFields)
    (hnodup : (store.map Task.id).Nodup) :
    (∀ t u', (applyTaskUpdate now t u').custom_category = t.custom_category) ∧
    ((updateTaskOp store owner tid now u).2).map Task.custom_category =
      store.map Task.custom_category := by
  have happ : ∀ (t : Task) (u' : TaskUpdateFields),
      (applyTaskUpdate now t u').custom_category = t.custom_category := by
    intro t u'
    unfold applyTaskUpdate
    rw [Task.save_custom_category]
  refine ⟨happ, ?_⟩
  unfold updateTaskOp
  cases hg : get_object store owner tid with
  | error e => rfl
  | ok t =>
    simp only [List.map_map]
    apply List.map_congr_left
    intro s hs
    simp only [Function.comp]
    by_cases hid : (s.id == t.id) = true
    · rw [if_pos hid]
      rw [happ t u]
      have ht : t ∈ store := by
        unfold get_object at hg
        cases hf : (get_queryset store owner).find? (fun x => x.id == tid) with
        | none => rw [hf] at hg; exact absurd hg (by simp)
        | some x =>
          rw [hf] at hg
          have hx := List.mem_of_find?_eq_some hf
          unfold get_queryset at hx
          rw [List.mem_filter] at hx
          by_cases hxu : (x.user == owner) = true
          · simp [hxu] at hg
            rw [← hg]
            exact hx.1
          · simp [hxu] at hg
      have hst : s = t := by
        apply List.inj_on_of_nodup_map hnodup hs ht
        simpa using hid
      rw [hst]
    · rw [if_neg hid]

/-- C10 witness: a concrete full update leaves the custom-category
column of the store untouched. -/
theorem c10_witness :
    ((updateTaskOp [cTask] 5 2 9 noneUpdate).2).map Task.custom_category =
      [cTask].map Task.custom_category :=
  (c10_update_preserves_custom_category [cTask] 5 2 9 noneUpdate (by decide)).2

end TaskFlow
